import Mathlib

/-!
Verification of the VoltDB per-partition execution-engine core against its
natural-language specification.

The development shallowly embeds the relevant parts of three source files:

* `src/ee/voltdbipc.cpp` — IPC command dispatch (`VoltDBIPC::execute`) and the
  dependency-retrieval sub-protocol (`VoltDBIPC::retrieveDependency`);
* `src/ee/execution/VoltDBEngine.h` — `VoltDBEngine::setUndoToken`;
* `src/ee/storage/MaterializedViewHandler.cpp` — incremental materialized-view
  maintenance: `findExistingTuple`, `mergeTupleForInsert`, `mergeTupleForDelete`,
  `fallbackMinMaxColumn`, `handleTupleInsert`, `handleTupleDelete`, `install`
  and the handler destructor.

Machine integers are modelled as `Int`/`Nat`; SQL values (`NValue`) as
`Option Int` (with `none` standing for SQL NULL); fallible or external steps
(query execution, the host side of the IPC socket) are explicit parameters.
-/

namespace VoltVerify

/-! ## SQL value model

`NValue` is VoltDB's boxed SQL value.  Its implementation lives in
`common/NValue.hpp`, outside the excerpt, so the handful of operations the
embedded code needs are modelled here; only integer-typed values appear in the
claims, so an `NValue` is `Option Int`, `none` being SQL NULL. -/

/-- Modelled from the spec: a SQL value is either NULL or (for the aggregate
columns the claims are about) a 64-bit integer value. -/
abbrev NValue := Option Int

/-- Modelled from the spec: `NValue::isNull`. -/
def NValue.isNull (v : NValue) : Bool := v.isNone

/-- Modelled from the spec: `NValue::op_add`; adding NULL yields NULL
(the source only calls it on two non-NULL operands). -/
def NValue.op_add (a b : NValue) : NValue :=
  match a, b with
  | some x, some y => some (x + y)
  | _, _ => none

/-- Modelled from the spec: `NValue::op_subtract`; subtracting with a NULL
operand yields NULL. -/
def NValue.op_subtract (a b : NValue) : NValue :=
  match a, b with
  | some x, some y => some (x - y)
  | _, _ => none

/-- Modelled from the spec: `NValue::compare`, returning negative / zero /
positive.  NULL sorts below every non-NULL value; the source only compares a
possibly-NULL existing value against a non-NULL delta value, for which any
NULL ordering convention gives a nonzero result. -/
def NValue.compareTo (a b : NValue) : Int :=
  match a, b with
  | some x, some y => if x < y then -1 else if y < x then 1 else 0
  | none, some _ => -1
  | some _, none => 1
  | none, none => 0

/-- Modelled from the spec: `NValue::isZero`; NULL is not zero. -/
def NValue.isZero (v : NValue) : Bool := v = some 0

/-- SQL value equality as the spec uses `==` on column values: both operands
are non-NULL and carry the same value (NULL compares equal to nothing). -/
def NValue.sqlEquals (a b : NValue) : Bool :=
  match a, b with
  | some x, some y => x = y
  | _, _ => false

/-! ## C1: IPC command dispatch (`VoltDBIPC::execute`, voltdbipc.cpp) -/

/-- The request handlers of `VoltDBIPC` that the `execute` switch can invoke
(each constructor names the member function called by the corresponding
`case`); `stub` is the default arm. -/
inductive IPCHandler where
  | initializeEngine
  | loadCatalog
  | updateCatalog
  | toggleProfiler
  | tick
  | getStats
  | executeQueryPlanFragmentsAndGetResults
  | executePlanFragmentAndGetResults
  | loadTable
  | releaseUndoToken
  | undoUndoToken
  | executeCustomPlanFragmentAndGetResults
  | setLogLevels
  | quiesce
  | activateCopyOnWrite
  | cowSerializeMore
  | stub
  deriving DecidableEq, Repr

/-- The dispatch switch of `VoltDBIPC::execute` (voltdbipc.cpp lines 184-241):
which handler each command code is routed to. -/
def VoltDBIPC.execute (command : Nat) : IPCHandler :=
  match command with
  | 0 => IPCHandler.initializeEngine
  | 2 => IPCHandler.loadCatalog
  | 3 => IPCHandler.toggleProfiler
  | 4 => IPCHandler.tick
  | 5 => IPCHandler.getStats
  | 6 => IPCHandler.executeQueryPlanFragmentsAndGetResults
  | 7 => IPCHandler.executePlanFragmentAndGetResults
  | 9 => IPCHandler.loadTable
  | 10 => IPCHandler.releaseUndoToken
  | 11 => IPCHandler.undoUndoToken
  | 12 => IPCHandler.executeCustomPlanFragmentAndGetResults
  | 13 => IPCHandler.setLogLevels
  | 16 => IPCHandler.quiesce
  | 17 => IPCHandler.activateCopyOnWrite
  | 18 => IPCHandler.cowSerializeMore
  | 19 => IPCHandler.loadCatalog
  | _ => IPCHandler.stub

/-! ## C2: undo-token lifecycle (`VoltDBEngine::setUndoToken`, VoltDBEngine.h) -/

/-- `INT64_MAX`. -/
def int64Max : Int := 2 ^ 63 - 1

/-- The engine's undo-quantum bookkeeping: the tokens of the undo quanta
generated so far, in generation order.  `m_currentUndoQuantum` is the most
recently generated quantum, so its token is the last entry (`none` models the
initial `nullptr`). -/
structure UndoState where
  openedTokens : List Int
  deriving DecidableEq, Repr

/-- Token of `m_currentUndoQuantum` (VoltDBEngine.h line 726: starts as
`nullptr`, afterwards always the most recently generated quantum). -/
def UndoState.currentToken (s : UndoState) : Option Int := s.openedTokens.getLast?

/-- `VoltDBEngine::setUndoToken` (VoltDBEngine.h lines 469-480): return
unchanged when the token is `INT64_MAX` or equals the current quantum's token,
otherwise generate a new undo quantum carrying the token.  The source's
`vassert(nextUndoToken > ...)` is a precondition, stated in the theorems. -/
def setUndoToken (s : UndoState) (nextUndoToken : Int) : UndoState :=
  if nextUndoToken = int64Max then s
  else
    match s.currentToken with
    | some tok =>
        if tok = nextUndoToken then s
        else { openedTokens := s.openedTokens ++ [nextUndoToken] }
    | none => { openedTokens := s.openedTokens ++ [nextUndoToken] }

/-! ## Materialized-view maintenance (MaterializedViewHandler.cpp) -/

/-- The aggregate expression types a materialized-view column may carry
(`ExpressionType` values accepted by `setUpAggregateInfo`,
MaterializedViewHandler.cpp lines 186-193). -/
inductive ExpressionType where
  | aggregateSum
  | aggregateCount
  | aggregateCountStar
  | aggregateMin
  | aggregateMax
  deriving DecidableEq, Repr

/-- A table tuple: the list of its column values. -/
abbrev Tuple := List NValue

/-- `TableTuple::getNValue` (out-of-range reads never happen in the source;
they are mapped to NULL). -/
def Tuple.getNValue (t : Tuple) (i : Nat) : NValue := t.getD i none

/-- The per-view state of a `MaterializedViewHandler` that the maintenance
paths read: `m_groupByColumnCount`, `m_aggTypes` (one entry per aggregate
column, in destination-column order), and `m_countStarColumnIndex` (the
absolute destination-column index of the COUNT(*) column). -/
structure MVHandler where
  groupByColumnCount : Nat
  aggTypes : List ExpressionType
  countStarColumnIndex : Nat
  deriving DecidableEq, Repr

/-- The aggregate-merge step of `mergeTupleForInsert` for one aggregate column
(MaterializedViewHandler.cpp lines 296-329): `newValue` starts as the delta
value; a NULL delta keeps the existing value; otherwise SUM/COUNT/COUNT(*) add
onto a non-NULL existing value, and MIN/MAX ignore a delta that is not a
strict improvement over a non-NULL existing value. -/
def mergeValueForInsert (aggType : ExpressionType)
    (existingValue deltaValue : NValue) : NValue :=
  if deltaValue.isNull = true then existingValue
  else
    match aggType with
    | ExpressionType.aggregateSum
    | ExpressionType.aggregateCount
    | ExpressionType.aggregateCountStar =>
        if existingValue.isNull = false then NValue.op_add existingValue deltaValue
        else deltaValue
    | ExpressionType.aggregateMin =>
        if existingValue.isNull = false ∧ NValue.compareTo deltaValue existingValue ≥ 0
        then existingValue else deltaValue
    | ExpressionType.aggregateMax =>
        if existingValue.isNull = false ∧ NValue.compareTo deltaValue existingValue ≤ 0
        then existingValue else deltaValue

/-- `MaterializedViewHandler::mergeTupleForInsert` (lines 284-330): the
updated tuple copies the group-by columns from the existing view row and
merges every aggregate column of the delta row into the existing row. -/
def mergeTupleForInsert (h : MVHandler) (existingTuple deltaTuple : Tuple) : Tuple :=
  (List.range h.groupByColumnCount).map existingTuple.getNValue
    ++ (List.range h.aggTypes.length).map (fun j =>
        mergeValueForInsert (h.aggTypes.getD j ExpressionType.aggregateCountStar)
          (existingTuple.getNValue (h.groupByColumnCount + j))
          (deltaTuple.getNValue (h.groupByColumnCount + j)))

/-- The merged value for one aggregate column as the specification words it
(spec §4.G insert path): NULL delta keeps the existing value; NULL existing
takes the delta; otherwise SUM/COUNT/COUNT(*) add, MIN takes the smaller value
(existing kept on ties) and MAX the larger (existing kept on ties). -/
def mergeValueForInsertSpec (aggType : ExpressionType)
    (existingValue deltaValue : NValue) : NValue :=
  match deltaValue with
  | none => existingValue
  | some d =>
      match existingValue with
      | none => some d
      | some e =>
          match aggType with
          | ExpressionType.aggregateSum
          | ExpressionType.aggregateCount
          | ExpressionType.aggregateCountStar => some (e + d)
          | ExpressionType.aggregateMin => if e ≤ d then some e else some d
          | ExpressionType.aggregateMax => if e ≥ d then some e else some d

/-- `MaterializedViewHandler::findExistingTuple` (lines 264-282): with no
group-by columns the single row of the view is fetched unconditionally
(iterator `next`, modelled by `head?`); otherwise the primary-key index is
probed with the delta tuple's group-by columns.  `some row` models the source
returning `true` with `m_existingTuple` set to `row`. -/
def findExistingTuple (h : MVHandler) (viewRows : List Tuple) (deltaTuple : Tuple) :
    Option Tuple :=
  if h.groupByColumnCount = 0 then viewRows.head?
  else viewRows.find? (fun r =>
    r.take h.groupByColumnCount == deltaTuple.take h.groupByColumnCount)

/-- The observable actions of the view-maintenance paths, recorded in order:
delta-table mode transitions (`ScopedDeltaTableContext` construction and
destruction), the create-query execution, destination-table mutations, the
min/max fallback query, and the fatal `ViewDesync` throw. -/
inductive ViewEvent where
  | enterDeltaMode
  | executeCreateQuery
  | exitDeltaMode
  | directInsert (deltaTuple : Tuple)
  | updateExisting (oldRow newRow : Tuple)
  | deleteRow (row : Tuple)
  | fallbackQuery (minMaxColumnIndex : Nat)
  | fatalViewDesync
  deriving DecidableEq, Repr

/-- `PersistentTable::updateTupleWithSpecificIndexes` on the destination view
table, modelled on the row list: replace the located row in place. -/
def updateRowAt (view : List Tuple) (oldRow newRow : Tuple) : List Tuple :=
  match view.findIdx? (fun r => r == oldRow) with
  | some i => view.set i newRow
  | none => view

/-- `PersistentTable::deleteTuple` on the destination view table, modelled on
the row list: remove the located row. -/
def removeRow (view : List Tuple) (row : Tuple) : List Tuple :=
  view.erase row

/-- One iteration of the delta-row loop of `handleTupleInsert`
(lines 340-352): merge into the existing row when found, insert the delta
row directly otherwise. -/
def handleInsertRow (h : MVHandler) (view : List Tuple) (d : Tuple) :
    List Tuple × List ViewEvent :=
  match findExistingTuple h view d with
  | some existing =>
      let updated := mergeTupleForInsert h existing d
      (updateRowAt view existing updated, [ViewEvent.updateExisting existing updated])
  | none => (view ++ [d], [ViewEvent.directInsert d])

/-- The delta-row loop of `handleTupleInsert`, over the rows of the delta
result set in iteration order. -/
def handleInsertRows (h : MVHandler) :
    List Tuple → List Tuple → List Tuple × List ViewEvent
  | view, [] => (view, [])
  | view, d :: rest =>
      let step := handleInsertRow h view d
      let next := handleInsertRows h step.1 rest
      (next.1, step.2 ++ next.2)

/-- `MaterializedViewHandler::handleTupleInsert` (lines 332-353): the source
table is in delta mode for the whole call (the `ScopedDeltaTableContext` is a
stack object destroyed on return), the create query runs, and each delta row
is merged or inserted.  `deltaRows` stands for the rows of the temp table the
create query produced. -/
def handleTupleInsert (h : MVHandler) (view deltaRows : List Tuple) :
    List Tuple × List ViewEvent :=
  let core := handleInsertRows h view deltaRows
  (core.1, ViewEvent.enterDeltaMode :: ViewEvent.executeCreateQuery ::
    (core.2 ++ [ViewEvent.exitDeltaMode]))

/-- The aggregate-merge step of `mergeTupleForDelete` for one aggregate
column in the nonzero-count branch (lines 388-420): a NULL delta keeps the
existing value; SUM/COUNT/COUNT(*) subtract; MIN/MAX recompute through the
fallback query when the removed value ties the current extremum.  The `Bool`
records whether the fallback query ran; `fallbackValue` is its result. -/
def mergeValueForDelete (aggType : ExpressionType)
    (existingValue deltaValue fallbackValue : NValue) : NValue × Bool :=
  if deltaValue.isNull = true then (existingValue, false)
  else
    match aggType with
    | ExpressionType.aggregateCountStar
    | ExpressionType.aggregateSum
    | ExpressionType.aggregateCount =>
        (NValue.op_subtract existingValue deltaValue, false)
    | ExpressionType.aggregateMin
    | ExpressionType.aggregateMax =>
        if NValue.compareTo existingValue deltaValue = 0
        then (fallbackValue, true)
        else (existingValue, false)

/-- The running `minMaxColumnIndex` counter of `mergeTupleForDelete`: how many
MIN/MAX aggregate columns precede aggregate column `j`; it selects which
fallback plan (`m_minMaxExecutorVectors` entry) the column uses. -/
def minMaxIndexBefore (aggTypes : List ExpressionType) (j : Nat) : Nat :=
  ((aggTypes.take j).filter (fun t =>
    t == ExpressionType.aggregateMin || t == ExpressionType.aggregateMax)).length

/-- The merged value (and fallback-ran flag) of aggregate column `j` in the
nonzero-count branch of `mergeTupleForDelete`.  `fb k existing` stands for
the scalar the `k`-th fallback min/max plan returns when run for the group of
`existing`. -/
def deleteMergedValue (h : MVHandler) (existingTuple deltaTuple : Tuple)
    (fb : Nat → Tuple → NValue) (j : Nat) : NValue × Bool :=
  mergeValueForDelete (h.aggTypes.getD j ExpressionType.aggregateCountStar)
    (existingTuple.getNValue (h.groupByColumnCount + j))
    (deltaTuple.getNValue (h.groupByColumnCount + j))
    (fb (minMaxIndexBefore h.aggTypes j) existingTuple)

/-- `MaterializedViewHandler::mergeTupleForDelete` (lines 355-422): group-by
columns are copied from the existing row; if the updated count
(`existing[count*] - delta[count*]`) is zero, COUNT/COUNT(*) columns become 0
and every other aggregate becomes NULL (no fallback queries run); otherwise
each aggregate column is merged by `mergeValueForDelete`.  The event list
records the fallback queries that ran, in column order. -/
def mergeTupleForDelete (h : MVHandler) (existingTuple deltaTuple : Tuple)
    (fb : Nat → Tuple → NValue) : Tuple × List ViewEvent :=
  let groupBy := (List.range h.groupByColumnCount).map existingTuple.getNValue
  let newCount := NValue.op_subtract (existingTuple.getNValue h.countStarColumnIndex)
      (deltaTuple.getNValue h.countStarColumnIndex)
  if newCount.isZero = true then
    (groupBy ++ h.aggTypes.map (fun t =>
        if t = ExpressionType.aggregateCount ∨ t = ExpressionType.aggregateCountStar
        then some 0 else none),
     [])
  else
    (groupBy ++ (List.range h.aggTypes.length).map
        (fun j => (deleteMergedValue h existingTuple deltaTuple fb j).1),
     (List.range h.aggTypes.length).filterMap (fun j =>
        if (deleteMergedValue h existingTuple deltaTuple fb j).2 = true
        then some (ViewEvent.fallbackQuery (minMaxIndexBefore h.aggTypes j))
        else none))

/-- One iteration of the delta-row loop of `handleTupleDelete`
(lines 464-485): a missing existing row is the fatal `ViewDesync` (`none`);
the existing row is deleted when the delta count equals the existing count
and there are group-by columns, and updated in place via
`mergeTupleForDelete` otherwise. -/
def handleDeleteRow (h : MVHandler) (view : List Tuple) (d : Tuple)
    (fb : Nat → Tuple → NValue) : Option (List Tuple × List ViewEvent) :=
  match findExistingTuple h view d with
  | none => none
  | some existing =>
      let existingCount := existing.getNValue h.countStarColumnIndex
      let deltaCount := d.getNValue h.countStarColumnIndex
      if NValue.compareTo existingCount deltaCount = 0 ∧ 0 < h.groupByColumnCount then
        some (removeRow view existing, [ViewEvent.deleteRow existing])
      else
        let merged := mergeTupleForDelete h existing d fb
        some (updateRowAt view existing merged.1,
          merged.2 ++ [ViewEvent.updateExisting existing merged.1])

/-- The delta-row loop of `handleTupleDelete`; the fatal throw aborts the
loop. -/
def handleDeleteRows (h : MVHandler) (fb : Nat → Tuple → NValue) :
    List Tuple → List Tuple → List Tuple × List ViewEvent
  | view, [] => (view, [])
  | view, d :: rest =>
      match handleDeleteRow h view d fb with
      | none => (view, [ViewEvent.fatalViewDesync])
      | some step =>
          let next := handleDeleteRows h fb step.1 rest
          (next.1, step.2 ++ next.2)

/-- `MaterializedViewHandler::handleTupleDelete` (lines 453-486): delta mode
is entered, the create query runs, and the `ScopedDeltaTableContext` is
deleted *before* the delta-row loop, "to terminate the delta table mode early
in order to run other queries" (lines 461-463). -/
def handleTupleDelete (h : MVHandler) (view deltaRows : List Tuple)
    (fb : Nat → Tuple → NValue) : List Tuple × List ViewEvent :=
  let core := handleDeleteRows h fb view deltaRows
  (core.1, ViewEvent.enterDeltaMode :: ViewEvent.executeCreateQuery ::
    ViewEvent.exitDeltaMode :: core.2)

/-- Delta-mode tracking: one event's effect on whether the source table is in
delta-table mode. -/
def deltaStep (b : Bool) (e : ViewEvent) : Bool :=
  match e with
  | ViewEvent.enterDeltaMode => true
  | ViewEvent.exitDeltaMode => false
  | _ => b

/-- Whether the source table is in delta-table mode after the given event
sequence (starting outside delta mode). -/
def deltaActive (events : List ViewEvent) : Bool :=
  events.foldl deltaStep false

/-! ## C7: parameter-array save/restore (`fallbackMinMaxColumn`) -/

/-- Writing slots `0, ..., m-1` of a parameter array, the loop idiom of
`fallbackMinMaxColumn`. -/
def setSlots (p : List NValue) (m : Nat) (f : Nat → NValue) : List NValue :=
  (List.range m).foldl (fun q k => q.set k (f k)) p

/-- `MaterializedViewHandler::fallbackMinMaxColumn` (lines 424-451): back up
parameter slots `0..groupByColumnCount`, overwrite them with the group-by key
of the existing row and the current extremum, run the fallback plan
(`execQuery`, which reads the parameter array and yields the single result
row, if any), then write the backups back.  Returns the recomputed extremum
(NULL when the result set is empty) and the final parameter array. -/
def fallbackMinMaxColumn (h : MVHandler) (existingTuple : Tuple) (columnIndex : Nat)
    (execQuery : List NValue → Option Tuple) (params : List NValue) :
    NValue × List NValue :=
  let n := h.groupByColumnCount
  let backups := (List.range (n + 1)).map (fun i => params.getD i none)
  let filled := (setSlots params n (fun i => existingTuple.getNValue i)).set n
      (existingTuple.getNValue columnIndex)
  let newValue := match execQuery filled with
    | some resultTuple => resultTuple.getNValue 0
    | none => none
  let restored := setSlots filled (n + 1) (fun i => backups.getD i none)
  (newValue, restored)

/-! ## C9: dependency retrieval (`VoltDBIPC::retrieveDependency`) -/

/-- Modelled from the spec: status code `DependencyNotFound = 3` (§6; the
`kErrorCode` constants live in voltdbipc.h, outside the excerpt). -/
def kErrorCode_DependencyNotFound : Nat := 3

/-- Modelled from the spec: status code `DependencyFound = 4` (§6). -/
def kErrorCode_DependencyFound : Nat := 4

/-- Big-endian decoding of the `i32` length prefix (`ntohl`). -/
def readBE32 (bytes : List Nat) : Nat :=
  bytes.foldl (fun acc b => acc * 256 + b) 0

/-- Outcome of `VoltDBIPC::retrieveDependency`: the NULL return, a dependency
byte buffer, or process death (`assert(false); exit(-1)`), which the source
uses for unexpected status codes, short reads, and negative lengths. -/
inductive DependencyResult where
  | nullDependency
  | dependencyData (bytes : List Nat)
  | fatalError
  deriving DecidableEq, Repr

/-- `VoltDBIPC::retrieveDependency` (voltdbipc.cpp lines 634-708), reading
from the host byte stream `input`: one status byte, then — only in the
`DependencyFound` case — a big-endian `i32` length and that many payload
bytes.  The second component counts the bytes consumed from the stream.
A length with the sign bit set makes the `new char[dependencyLength]` /
read-loop path die, modelled as `fatalError`. -/
def retrieveDependency (input : List Nat) : DependencyResult × Nat :=
  match input with
  | [] => (DependencyResult.fatalError, 0)
  | responseCode :: rest =>
      if responseCode = kErrorCode_DependencyNotFound then
        (DependencyResult.nullDependency, 1)
      else if responseCode ≠ kErrorCode_DependencyFound then
        (DependencyResult.fatalError, 1)
      else if 4 ≤ rest.length then
        let dependencyLength := readBE32 (rest.take 4)
        if dependencyLength < 2 ^ 31 ∧ dependencyLength ≤ (rest.drop 4).length then
          (DependencyResult.dependencyData ((rest.drop 4).take dependencyLength),
           1 + 4 + dependencyLength)
        else (DependencyResult.fatalError, input.length)
      else (DependencyResult.fatalError, input.length)

/-! ## C10: handler install / destruction (`install`, `~MaterializedViewHandler`) -/

/-- The source tables' notify lists (`viewsToTrigger`): for each table id, the
ids of the view handlers registered on it, in registration order. -/
abbrev NotifyLists := Nat → List Nat

/-- `PersistentTable::addViewHandler`: append the handler id to the table's
notify list. -/
def addViewHandler (ts : NotifyLists) (tableId handlerId : Nat) : NotifyLists :=
  fun t => if t = tableId then ts t ++ [handlerId] else ts t

/-- `PersistentTable::dropViewHandler`: remove the handler id from the
table's notify list. -/
def dropViewHandler (ts : NotifyLists) (tableId handlerId : Nat) : NotifyLists :=
  fun t => if t = tableId then (ts t).erase handlerId else ts t

/-- The identity of one `MaterializedViewHandler` for the install/destroy
protocol: its own id, the id of its `ReplicatedMaterializedViewHandler`
wrapper (used on replicated source tables when the handler is partitioned),
its source tables (id plus `isCatalogTableReplicated` flag), and whether its
destination table is replicated. -/
structure MVHandlerObj where
  hid : Nat
  wrapperId : Nat
  sourceTables : List (Nat × Bool)
  destReplicated : Bool
  deriving DecidableEq, Repr

/-- Which id `addSourceTable`/`dropSourceTable` (lines 65-139) register on a
source table: the replicated wrapper when a partitioned handler meets a
replicated source table (`viewHandlerPartitioned ==
sourceTable->isCatalogTableReplicated()`), the handler itself otherwise. -/
def registeredId (hd : MVHandlerObj) (sourceReplicated : Bool) : Nat :=
  if (!hd.destReplicated) = sourceReplicated then hd.wrapperId else hd.hid

/-- `MaterializedViewHandler::~MaterializedViewHandler` (lines 54-63): drop
this handler (or its wrapper) from the notify list of every one of its source
tables. -/
def destroyHandler (hd : MVHandlerObj) (ts : NotifyLists) : NotifyLists :=
  hd.sourceTables.foldl
    (fun acc st => dropViewHandler acc st.1 (registeredId hd st.2)) ts

/-- Observable notify-list mutations of `install`, in order. -/
inductive InstallEvent where
  | dropNotify (tableId handlerId : Nat)
  | addNotify (tableId handlerId : Nat)
  deriving DecidableEq, Repr

/-- The state `install` manipulates: the source tables' notify lists plus the
destination table's `m_mvHandler` slot. -/
structure InstallState where
  tables : NotifyLists
  destHandler : Option MVHandlerObj

/-- `MaterializedViewHandler::install` (lines 147-169): `delete
m_destTable->m_mvHandler` first (running the destructor above on the old
handler, if any), then set the slot to the new handler and register it on all
of its source tables. -/
def install (newHandler : MVHandlerObj) (st : InstallState) :
    InstallState × List InstallEvent :=
  let dropped : NotifyLists :=
    match st.destHandler with
    | some old => destroyHandler old st.tables
    | none => st.tables
  let dropEvents : List InstallEvent :=
    match st.destHandler with
    | some old => old.sourceTables.map
        (fun s => InstallEvent.dropNotify s.1 (registeredId old s.2))
    | none => []
  let registered := newHandler.sourceTables.foldl
      (fun acc s => addViewHandler acc s.1 (registeredId newHandler s.2)) dropped
  ({ tables := registered, destHandler := some newHandler },
   dropEvents ++ newHandler.sourceTables.map
     (fun s => InstallEvent.addNotify s.1 (registeredId newHandler s.2)))

end VoltVerify

namespace VoltVerify

/-- C1 — the claim says command code 19 (UpdateCatalog) must invoke the
engine's diff-based catalog update; the dispatch switch instead routes
command 19 to the `loadCatalog` handler (the wholesale replacement), and in
particular not to the `updateCatalog` handler that exists in the same file
(voltdbipc.cpp lines 284-294) precisely for this command. -/
theorem execute_routes_19_to_loadCatalog :
    VoltDBIPC.execute 19 = IPCHandler.loadCatalog ∧
      IPCHandler.loadCatalog ≠ IPCHandler.updateCatalog := by
  decide

/-- C2 — `setUndoToken t` is a no-op when `t = INT64_MAX` or `t` equals the
current quantum's token; otherwise, under the asserted precondition that `t`
is strictly above the current token, it opens a new quantum with token `t`,
and the sequence of tokens of the quanta opened so far stays strictly
increasing. -/
theorem setUndoToken_spec (s : UndoState) (t : Int) :
    (t = int64Max → setUndoToken s t = s) ∧
    (s.currentToken = some t → setUndoToken s t = s) ∧
    (t ≠ int64Max → s.currentToken ≠ some t →
      (∀ tok, s.currentToken = some tok → tok < t) →
      (setUndoToken s t).openedTokens = s.openedTokens ++ [t] ∧
      (setUndoToken s t).currentToken = some t ∧
      (s.openedTokens.Chain' (· < ·) →
        (setUndoToken s t).openedTokens.Chain' (· < ·))) := by
  refine ⟨?_, ?_, ?_⟩
  · intro h
    simp [setUndoToken, h]
  · intro h
    simp [setUndoToken, h]
  · intro hmax hne hlt
    have hopen : (setUndoToken s t).openedTokens = s.openedTokens ++ [t] := by
      unfold setUndoToken
      rw [if_neg hmax]
      cases hcur : s.currentToken with
      | none => rfl
      | some tok =>
          have : tok ≠ t := fun he => hne (he ▸ hcur)
          simp [this]
    refine ⟨hopen, ?_, ?_⟩
    · rw [UndoState.currentToken, hopen]
      simp
    · intro hchain
      rw [hopen]
      rw [List.chain'_append]
      refine ⟨hchain, List.chain'_singleton t, ?_⟩
      intro x hx y hy
      have hxcur : s.currentToken = some x := by
        rw [UndoState.currentToken, hx]
      have hyt : t = y := by simpa using hy
      cases hyt
      exact hlt x hxcur

/-- `compare` is nonnegative exactly when the left value is at least the
right one (both non-NULL). -/
lemma compareTo_nonneg_iff (x y : Int) :
    NValue.compareTo (some x) (some y) ≥ 0 ↔ y ≤ x := by
  simp only [NValue.compareTo]
  split_ifs <;> constructor <;> intro h <;> first | omega | exact h.elim

/-- `compare` is nonpositive exactly when the left value is at most the
right one (both non-NULL). -/
lemma compareTo_nonpos_iff (x y : Int) :
    NValue.compareTo (some x) (some y) ≤ 0 ↔ x ≤ y := by
  simp only [NValue.compareTo]
  split_ifs <;> constructor <;> intro h <;> first | omega | exact h.elim

/-- `compare` is zero exactly on equal non-NULL values. -/
lemma compareTo_eq_zero_iff (x y : Int) :
    NValue.compareTo (some x) (some y) = 0 ↔ x = y := by
  simp only [NValue.compareTo]
  split_ifs <;> constructor <;> intro h <;> first | omega | exact h.elim

/-- The per-column merge of `mergeTupleForInsert` computes exactly the value
the specification describes, for every aggregate type and every pair of
existing/delta values. -/
lemma mergeValueForInsert_eq_spec (aggType : ExpressionType) (e d : NValue) :
    mergeValueForInsert aggType e d = mergeValueForInsertSpec aggType e d := by
  cases d with
  | none =>
      cases aggType <;> cases e <;>
        simp [mergeValueForInsert, mergeValueForInsertSpec, NValue.isNull]
  | some dv =>
      cases e with
      | none =>
          cases aggType <;>
            simp [mergeValueForInsert, mergeValueForInsertSpec, NValue.isNull,
              NValue.op_add, NValue.compareTo]
      | some ev =>
          cases aggType <;>
            simp [mergeValueForInsert, mergeValueForInsertSpec, NValue.isNull,
              NValue.op_add, compareTo_nonneg_iff, compareTo_nonpos_iff]

/-- Reading an aggregate column of the merged tuple: position `gbcc + j` of
the updated tuple carries the merged value of column `j`'s aggregate. -/
lemma mergeTupleForInsert_getD (h : MVHandler) (existingTuple deltaTuple : Tuple)
    (j : Nat) (hj : j < h.aggTypes.length) :
    (mergeTupleForInsert h existingTuple deltaTuple).getNValue (h.groupByColumnCount + j) =
      mergeValueForInsert (h.aggTypes.getD j ExpressionType.aggregateCountStar)
        (existingTuple.getNValue (h.groupByColumnCount + j))
        (deltaTuple.getNValue (h.groupByColumnCount + j)) := by
  unfold mergeTupleForInsert Tuple.getNValue
  rw [List.getD_append_right]
  · simp only [List.length_map, List.length_range, Nat.add_sub_cancel_left]
    rw [List.getD_eq_getElem?_getD]
    rw [List.getElem?_map]
    rw [List.getElem?_range hj]
    rfl
  · simp

end VoltVerify

namespace VoltVerify

/-- C2 witness — instantiation at `s = ⟨[5]⟩`, `t = 7`: the preconditions hold
and a new quantum with token 7 is opened, keeping tokens strictly increasing. -/
theorem setUndoToken_spec_witness :
    (setUndoToken ⟨[5]⟩ 7).openedTokens = [5, 7] ∧
      (setUndoToken ⟨[5]⟩ 7).currentToken = some 7 ∧
      (setUndoToken ⟨[5]⟩ 7).openedTokens.Chain' (· < ·) := by
  have h := (setUndoToken_spec ⟨[5]⟩ 7).2.2 (by decide)
    (by decide) (by intro tok htok; simp [UndoState.currentToken] at htok; omega)
  exact ⟨h.1, h.2.1, h.2.2 (List.chain'_singleton 5)⟩

/-- Reading past the copied group-by prefix of an updated tuple. -/
lemma getD_prefix_append (g : Nat → NValue) (l : List NValue) (n j : Nat) :
    ((List.range n).map g ++ l).getD (n + j) none = l.getD j none := by
  rw [List.getD_append_right] <;> simp

/-- Reading a mapped aggregate-type list at a valid index. -/
lemma getD_map_aggTypes (f : ExpressionType → NValue) (l : List ExpressionType)
    (j : Nat) (hj : j < l.length) :
    (l.map f).getD j none = f (l.getD j ExpressionType.aggregateCountStar) := by
  rw [List.getD_eq_getElem?_getD, List.getElem?_map, List.getElem?_eq_getElem hj,
    List.getD_eq_getElem l ExpressionType.aggregateCountStar hj]
  rfl

/-- Reading a map over `List.range` at a valid index. -/
lemma getD_range_map (g : Nat → NValue) (n j : Nat) (hj : j < n) :
    ((List.range n).map g).getD j none = g j := by
  rw [List.getD_eq_getElem?_getD, List.getElem?_map, List.getElem?_range hj]
  rfl

/-- In the zero-count branch of `mergeTupleForDelete`, aggregate column `j`
becomes 0 for COUNT/COUNT(*) and NULL otherwise. -/
lemma mergeTupleForDelete_zero_getD (h : MVHandler) (existingTuple deltaTuple : Tuple)
    (fb : Nat → Tuple → NValue)
    (hz : (NValue.op_subtract (existingTuple.getNValue h.countStarColumnIndex)
        (deltaTuple.getNValue h.countStarColumnIndex)).isZero = true)
    (j : Nat) (hj : j < h.aggTypes.length) :
    (mergeTupleForDelete h existingTuple deltaTuple fb).1.getNValue
        (h.groupByColumnCount + j) =
      if h.aggTypes.getD j ExpressionType.aggregateCountStar = ExpressionType.aggregateCount
        ∨ h.aggTypes.getD j ExpressionType.aggregateCountStar = ExpressionType.aggregateCountStar
      then some 0 else none := by
  simp only [mergeTupleForDelete, hz, eq_self_iff_true, if_true]
  simp only [Tuple.getNValue]
  rw [getD_prefix_append, getD_map_aggTypes _ _ j hj]

/-- In the zero-count branch of `mergeTupleForDelete`, no fallback queries
run. -/
lemma mergeTupleForDelete_zero_events (h : MVHandler) (existingTuple deltaTuple : Tuple)
    (fb : Nat → Tuple → NValue)
    (hz : (NValue.op_subtract (existingTuple.getNValue h.countStarColumnIndex)
        (deltaTuple.getNValue h.countStarColumnIndex)).isZero = true) :
    (mergeTupleForDelete h existingTuple deltaTuple fb).2 = [] := by
  simp only [mergeTupleForDelete, hz, eq_self_iff_true, if_true]

/-- In the nonzero-count branch of `mergeTupleForDelete`, aggregate column
`j` carries the merged value of `deleteMergedValue`. -/
lemma mergeTupleForDelete_nonzero_getD (h : MVHandler) (existingTuple deltaTuple : Tuple)
    (fb : Nat → Tuple → NValue)
    (hz : (NValue.op_subtract (existingTuple.getNValue h.countStarColumnIndex)
        (deltaTuple.getNValue h.countStarColumnIndex)).isZero = false)
    (j : Nat) (hj : j < h.aggTypes.length) :
    (mergeTupleForDelete h existingTuple deltaTuple fb).1.getNValue
        (h.groupByColumnCount + j) =
      (deleteMergedValue h existingTuple deltaTuple fb j).1 := by
  simp only [mergeTupleForDelete, hz, Bool.false_eq_true, if_false]
  simp only [Tuple.getNValue]
  rw [getD_prefix_append, getD_range_map _ _ j hj]

/-- In the nonzero-count branch of `mergeTupleForDelete`, the event list is
the fallback-query record. -/
lemma mergeTupleForDelete_nonzero_events (h : MVHandler) (existingTuple deltaTuple : Tuple)
    (fb : Nat → Tuple → NValue)
    (hz : (NValue.op_subtract (existingTuple.getNValue h.countStarColumnIndex)
        (deltaTuple.getNValue h.countStarColumnIndex)).isZero = false) :
    (mergeTupleForDelete h existingTuple deltaTuple fb).2 =
      (List.range h.aggTypes.length).filterMap (fun j =>
        if (deleteMergedValue h existingTuple deltaTuple fb j).2 = true
        then some (ViewEvent.fallbackQuery (minMaxIndexBefore h.aggTypes j))
        else none) := by
  simp only [mergeTupleForDelete, hz, Bool.false_eq_true, if_false]

/-- C3 — in merge-for-insert, every aggregate column `j` of the updated tuple
carries exactly the value the specification prescribes: the existing value
when the delta value is NULL; the delta value when the existing value is
NULL; otherwise the sum for SUM/COUNT/COUNT(*), the smaller value for MIN and
the larger for MAX (existing kept on ties). -/
theorem mergeTupleForInsert_column_spec (h : MVHandler) (existingTuple deltaTuple : Tuple)
    (j : Nat) (hj : j < h.aggTypes.length) :
    (mergeTupleForInsert h existingTuple deltaTuple).getNValue (h.groupByColumnCount + j) =
      mergeValueForInsertSpec (h.aggTypes.getD j ExpressionType.aggregateCountStar)
        (existingTuple.getNValue (h.groupByColumnCount + j))
        (deltaTuple.getNValue (h.groupByColumnCount + j)) := by
  rw [mergeTupleForInsert_getD h existingTuple deltaTuple j hj]
  exact mergeValueForInsert_eq_spec _ _ _

/-- C3 witness — a view `(g, COUNT(*), MIN(v))`: merging delta row
`(1, 1, 7)` into existing row `(1, 2, 5)` keeps the MIN column at 5. -/
theorem mergeTupleForInsert_column_spec_witness :
    (mergeTupleForInsert
        ⟨1, [ExpressionType.aggregateCountStar, ExpressionType.aggregateMin], 1⟩
        [some 1, some 2, some 5] [some 1, some 1, some 7]).getNValue (1 + 1) =
      some 5 := by
  rw [mergeTupleForInsert_column_spec
    ⟨1, [ExpressionType.aggregateCountStar, ExpressionType.aggregateMin], 1⟩
    [some 1, some 2, some 5] [some 1, some 1, some 7] 1 (by decide)]
  decide

/-- C4 — in the delete path, a matched existing row is deleted exactly when
the updated count (`existing[count*] - delta[count*]`) is zero and there are
group-by columns; in every other case the row is updated in place with the
merge-for-delete result, and when the updated count is zero with no group-by
columns every COUNT/COUNT(*) column of the merged row is 0 and every other
aggregate column is NULL. -/
theorem handleTupleDelete_row_spec (h : MVHandler) (view : List Tuple) (d : Tuple)
    (fb : Nat → Tuple → NValue) (existing : Tuple) (ec dc : Int)
    (hfound : findExistingTuple h view d = some existing)
    (hec : existing.getNValue h.countStarColumnIndex = some ec)
    (hdc : d.getNValue h.countStarColumnIndex = some dc) :
    (handleDeleteRow h view d fb =
      if ec - dc = 0 ∧ 0 < h.groupByColumnCount then
        some (removeRow view existing, [ViewEvent.deleteRow existing])
      else
        some (updateRowAt view existing (mergeTupleForDelete h existing d fb).1,
          (mergeTupleForDelete h existing d fb).2 ++
            [ViewEvent.updateExisting existing (mergeTupleForDelete h existing d fb).1])) ∧
    (ec - dc = 0 → h.groupByColumnCount = 0 →
      ∀ j, j < h.aggTypes.length →
        (mergeTupleForDelete h existing d fb).1.getNValue (h.groupByColumnCount + j) =
          if h.aggTypes.getD j ExpressionType.aggregateCountStar = ExpressionType.aggregateCount
            ∨ h.aggTypes.getD j ExpressionType.aggregateCountStar
                = ExpressionType.aggregateCountStar
          then some 0 else none) := by
  constructor
  · simp only [handleDeleteRow, hfound, hec, hdc]
    have hcond : NValue.compareTo (some ec) (some dc) = 0 ↔ ec - dc = 0 := by
      rw [compareTo_eq_zero_iff]
      constructor <;> intro <;> omega
    simp only [hcond]
  · intro hzero hgb j hj
    apply mergeTupleForDelete_zero_getD h existing d fb _ j hj
    rw [hec, hdc]
    simp only [NValue.op_subtract, NValue.isZero]
    simp [hzero]

/-- C4 witness — a no-group-by view `(COUNT(*), SUM(v))` holding `(1, 4)`:
deleting the last source row updates the single view row in place to
`(0, NULL)` rather than deleting it. -/
theorem handleTupleDelete_row_spec_witness :
    (mergeTupleForDelete ⟨0, [ExpressionType.aggregateCountStar, ExpressionType.aggregateSum], 0⟩
        [some 1, some 4] [some 1, some 4] (fun _ _ => none)).1.getNValue (0 + 1) = none := by
  have hspec := handleTupleDelete_row_spec
    ⟨0, [ExpressionType.aggregateCountStar, ExpressionType.aggregateSum], 0⟩
    [[some 1, some 4]] [some 1, some 4] (fun _ _ => none) [some 1, some 4] 1 1
    (by decide) (by decide) (by decide)
  rw [hspec.2 (by decide) rfl 1 (by decide)]
  decide

/-- For a MIN or MAX column, the nonzero-count merge step runs the fallback
exactly when the existing value SQL-equals the delta value, and otherwise
keeps the existing value. -/
lemma mergeValueForDelete_minmax_flag (aggType : ExpressionType) (e d fbv : NValue)
    (hmm : aggType = ExpressionType.aggregateMin ∨ aggType = ExpressionType.aggregateMax) :
    (mergeValueForDelete aggType e d fbv).2 = NValue.sqlEquals e d ∧
    (mergeValueForDelete aggType e d fbv).1 =
      (if NValue.sqlEquals e d = true then fbv else e) := by
  have hcore : ∀ (t : ExpressionType),
      t = ExpressionType.aggregateMin ∨ t = ExpressionType.aggregateMax →
      (mergeValueForDelete t e d fbv).2 = NValue.sqlEquals e d ∧
      (mergeValueForDelete t e d fbv).1 =
        (if NValue.sqlEquals e d = true then fbv else e) := by
    intro t ht
    cases d with
    | none =>
        rcases ht with ht | ht <;> subst ht <;> cases e <;>
          simp [mergeValueForDelete, NValue.isNull, NValue.sqlEquals]
    | some dv =>
        cases e with
        | none =>
            rcases ht with ht | ht <;> subst ht <;>
              simp [mergeValueForDelete, NValue.isNull, NValue.sqlEquals, NValue.compareTo]
        | some ev =>
            by_cases hv : ev = dv
            · subst hv
              have hzero : NValue.compareTo (some ev) (some ev) = 0 :=
                (compareTo_eq_zero_iff ev ev).mpr rfl
              rcases ht with ht | ht <;> subst ht <;>
                simp [mergeValueForDelete, NValue.isNull, NValue.sqlEquals, hzero]
            · have hnzero : ¬ NValue.compareTo (some ev) (some dv) = 0 := by
                rw [compareTo_eq_zero_iff]
                exact hv
              rcases ht with ht | ht <;> subst ht <;>
                simp [mergeValueForDelete, NValue.isNull, NValue.sqlEquals, hnzero, hv]
  exact hcore aggType hmm

/-- C5 counterexample — the claim, read over all of merge-for-delete, fails
in the zero-count branch: a no-group-by view `(COUNT(*), MIN(v))` whose
existing row `(1, 5)` is decremented by delta row `(1, 5)` has the MIN
column's existing value equal to the delta value (both 5), yet no fallback
query runs (the event list is empty) and the merged MIN value is NULL, not
the existing value. -/
theorem mergeTupleForDelete_fallback_cex :
    NValue.sqlEquals (Tuple.getNValue [some 1, some 5] (0 + 1))
        (Tuple.getNValue [some 1, some 5] (0 + 1)) = true ∧
    (mergeTupleForDelete ⟨0, [ExpressionType.aggregateCountStar, ExpressionType.aggregateMin], 0⟩
        [some 1, some 5] [some 1, some 5] (fun _ _ => some 99)).2 = [] ∧
    (mergeTupleForDelete ⟨0, [ExpressionType.aggregateCountStar, ExpressionType.aggregateMin], 0⟩
        [some 1, some 5] [some 1, some 5] (fun _ _ => some 99)).1.getNValue (0 + 1) = none := by
  decide

/-- C5 (amended: restricted to a nonzero updated count, the branch the
zero-count counterexample above exempts) — for every MIN or MAX aggregate
column `j`: the fallback query runs exactly when the existing value equals
the delta value (recording a `fallbackQuery` event with that column's
fallback-plan index, and taking the fallback result as the merged value);
otherwise the merged value is left as the existing value. -/
theorem mergeTupleForDelete_minmax_spec (h : MVHandler) (existingTuple deltaTuple : Tuple)
    (fb : Nat → Tuple → NValue) (j : Nat) (hj : j < h.aggTypes.length)
    (hmm : h.aggTypes.getD j ExpressionType.aggregateCountStar = ExpressionType.aggregateMin
      ∨ h.aggTypes.getD j ExpressionType.aggregateCountStar = ExpressionType.aggregateMax)
    (hnz : (NValue.op_subtract (existingTuple.getNValue h.countStarColumnIndex)
        (deltaTuple.getNValue h.countStarColumnIndex)).isZero = false) :
    ((deleteMergedValue h existingTuple deltaTuple fb j).2 =
      NValue.sqlEquals (existingTuple.getNValue (h.groupByColumnCount + j))
        (deltaTuple.getNValue (h.groupByColumnCount + j))) ∧
    ((mergeTupleForDelete h existingTuple deltaTuple fb).1.getNValue
        (h.groupByColumnCount + j) =
      if NValue.sqlEquals (existingTuple.getNValue (h.groupByColumnCount + j))
          (deltaTuple.getNValue (h.groupByColumnCount + j)) = true
      then fb (minMaxIndexBefore h.aggTypes j) existingTuple
      else existingTuple.getNValue (h.groupByColumnCount + j)) ∧
    ((deleteMergedValue h existingTuple deltaTuple fb j).2 = true →
      ViewEvent.fallbackQuery (minMaxIndexBefore h.aggTypes j)
        ∈ (mergeTupleForDelete h existingTuple deltaTuple fb).2) := by
  have hflag := mergeValueForDelete_minmax_flag
    (h.aggTypes.getD j ExpressionType.aggregateCountStar)
    (existingTuple.getNValue (h.groupByColumnCount + j))
    (deltaTuple.getNValue (h.groupByColumnCount + j))
    (fb (minMaxIndexBefore h.aggTypes j) existingTuple) hmm
  refine ⟨hflag.1, ?_, ?_⟩
  · rw [mergeTupleForDelete_nonzero_getD h existingTuple deltaTuple fb hnz j hj]
    exact hflag.2
  · intro hflagTrue
    rw [mergeTupleForDelete_nonzero_events h existingTuple deltaTuple fb hnz]
    apply List.mem_filterMap.mpr
    exact ⟨j, List.mem_range.mpr hj, by rw [hflagTrue]; rfl⟩

/-- C5 witness — a view `(g, COUNT(*), MIN(v))` with existing row
`(7, 2, 5)` and delta row `(7, 1, 5)`: the count stays nonzero, the MIN
values tie, so the fallback plan runs (recorded as `fallbackQuery 0`) and its
result 9 becomes the merged MIN value. -/
theorem mergeTupleForDelete_minmax_spec_witness :
    (mergeTupleForDelete ⟨1, [ExpressionType.aggregateCountStar, ExpressionType.aggregateMin], 1⟩
        [some 7, some 2, some 5] [some 7, some 1, some 5] (fun _ _ => some 9)).1.getNValue
        (1 + 1) = some 9 ∧
    ViewEvent.fallbackQuery 0 ∈
      (mergeTupleForDelete ⟨1, [ExpressionType.aggregateCountStar, ExpressionType.aggregateMin], 1⟩
        [some 7, some 2, some 5] [some 7, some 1, some 5] (fun _ _ => some 9)).2 := by
  have hs := mergeTupleForDelete_minmax_spec
    ⟨1, [ExpressionType.aggregateCountStar, ExpressionType.aggregateMin], 1⟩
    [some 7, some 2, some 5] [some 7, some 1, some 5] (fun _ _ => some 9) 1
    (by decide) (by decide) (by decide)
  constructor
  · rw [hs.2.1]
    decide
  · exact hs.2.2 (by decide)

/-- Every event `mergeTupleForDelete` records is a fallback query. -/
lemma mergeTupleForDelete_events_only_fallback (h : MVHandler)
    (existingTuple deltaTuple : Tuple) (fb : Nat → Tuple → NValue) :
    ∀ ev ∈ (mergeTupleForDelete h existingTuple deltaTuple fb).2,
      ∃ k, ev = ViewEvent.fallbackQuery k := by
  intro ev hev
  simp only [mergeTupleForDelete] at hev
  split at hev
  · exact absurd hev (List.not_mem_nil ev)
  · obtain ⟨j, _, hsome⟩ := List.mem_filterMap.mp hev
    by_cases hflag : (deleteMergedValue h existingTuple deltaTuple fb j).2 = true
    · rw [if_pos hflag] at hsome
      exact ⟨minMaxIndexBefore h.aggTypes j, (Option.some.injEq _ _ ▸ hsome).symm⟩
    · rw [if_neg hflag] at hsome
      exact absurd hsome (Option.noConfusion)

/-- No single delete-loop iteration records a delta-mode transition. -/
lemma handleDeleteRow_events (h : MVHandler) (view : List Tuple) (d : Tuple)
    (fb : Nat → Tuple → NValue) (step : List Tuple × List ViewEvent)
    (hstep : handleDeleteRow h view d fb = some step) :
    ∀ ev ∈ step.2, ev ≠ ViewEvent.enterDeltaMode ∧ ev ≠ ViewEvent.exitDeltaMode := by
  intro ev hev
  unfold handleDeleteRow at hstep
  cases hfind : findExistingTuple h view d with
  | none => rw [hfind] at hstep; exact absurd hstep (Option.noConfusion)
  | some existing =>
      rw [hfind] at hstep
      simp only at hstep
      split at hstep
      · cases hstep
        simp only [List.mem_singleton] at hev
        subst hev
        exact ⟨ViewEvent.noConfusion, ViewEvent.noConfusion⟩
      · cases hstep
        simp only at hev
        rcases List.mem_append.mp hev with h1 | h2
        · obtain ⟨k, hk⟩ := mergeTupleForDelete_events_only_fallback h existing d fb ev h1
          subst hk
          exact ⟨ViewEvent.noConfusion, ViewEvent.noConfusion⟩
        · simp only [List.mem_singleton] at h2
          subst h2
          exact ⟨ViewEvent.noConfusion, ViewEvent.noConfusion⟩

/-- The delete loop of `handleTupleDelete` records no delta-mode
transitions: the source table's delta mode is over before it starts. -/
lemma handleDeleteRows_events (h : MVHandler) (fb : Nat → Tuple → NValue) :
    ∀ (rows view : List Tuple), ∀ ev ∈ (handleDeleteRows h fb view rows).2,
      ev ≠ ViewEvent.enterDeltaMode ∧ ev ≠ ViewEvent.exitDeltaMode := by
  intro rows
  induction rows with
  | nil =>
      intro view ev hev
      simp [handleDeleteRows] at hev
  | cons d rest ih =>
      intro view ev hev
      rw [handleDeleteRows] at hev
      cases hstep : handleDeleteRow h view d fb with
      | none =>
          rw [hstep] at hev
          simp only [List.mem_singleton] at hev
          subst hev
          exact ⟨ViewEvent.noConfusion, ViewEvent.noConfusion⟩
      | some step =>
          rw [hstep] at hev
          simp only at hev
          rcases List.mem_append.mp hev with h1 | h2
          · exact handleDeleteRow_events h view d fb step hstep ev h1
          · exact ih step.1 ev h2

/-- Folding the delta-mode tracker over events that are no transitions leaves
the mode unchanged. -/
lemma foldl_deltaStep_const (l : List ViewEvent) (b : Bool)
    (hl : ∀ ev ∈ l, ev ≠ ViewEvent.enterDeltaMode ∧ ev ≠ ViewEvent.exitDeltaMode) :
    l.foldl deltaStep b = b := by
  induction l generalizing b with
  | nil => rfl
  | cons e rest ih =>
      have he := hl e (List.mem_cons_self e rest)
      have hstep : deltaStep b e = b := by
        cases e <;> first | rfl | (exact absurd rfl he.1) | (exact absurd rfl he.2)
      rw [List.foldl_cons, hstep]
      exact ih b (fun ev hev => hl ev (List.mem_cons_of_mem e hev))

end VoltVerify

namespace VoltVerify

/-- C6 — in the delete path the delta-table mode is exited before any
fallback min/max query runs: wherever a fallback-query event appears in the
`handleTupleDelete` trace, an `exitDeltaMode` event precedes it and the
source table is out of delta mode at that point. -/
theorem handleTupleDelete_fallback_after_exitDelta (h : MVHandler)
    (view deltaRows : List Tuple) (fb : Nat → Tuple → NValue)
    (pre post : List ViewEvent) (k : Nat)
    (hdecomp : (handleTupleDelete h view deltaRows fb).2 =
      pre ++ ViewEvent.fallbackQuery k :: post) :
    ViewEvent.exitDeltaMode ∈ pre ∧ deltaActive pre = false := by
  have hcore : (handleTupleDelete h view deltaRows fb).2 =
      ViewEvent.enterDeltaMode :: ViewEvent.executeCreateQuery ::
        ViewEvent.exitDeltaMode :: (handleDeleteRows h fb view deltaRows).2 := rfl
  rw [hcore] at hdecomp
  rcases pre with _ | ⟨a, pre1⟩
  · simp only [List.nil_append] at hdecomp
    exact absurd (List.head_eq_of_cons_eq hdecomp.symm) (fun hfq => ViewEvent.noConfusion hfq)
  rcases pre1 with _ | ⟨b, pre2⟩
  · simp only [List.cons_append, List.nil_append, List.cons.injEq] at hdecomp
    exact absurd hdecomp.2.1.symm (fun hfq => ViewEvent.noConfusion hfq)
  rcases pre2 with _ | ⟨c, pre3⟩
  · simp only [List.cons_append, List.nil_append, List.cons.injEq] at hdecomp
    exact absurd hdecomp.2.2.1.symm (fun hfq => ViewEvent.noConfusion hfq)
  · simp only [List.cons_append, List.cons.injEq] at hdecomp
    obtain ⟨ha, hb, hc, hrest⟩ := hdecomp
    subst ha
    subst hb
    subst hc
    constructor
    · exact List.mem_cons_of_mem _ (List.mem_cons_of_mem _ (List.mem_cons_self _ _))
    · show (ViewEvent.enterDeltaMode :: ViewEvent.executeCreateQuery ::
        ViewEvent.exitDeltaMode :: pre3).foldl deltaStep false = false
      simp only [List.foldl_cons]
      apply foldl_deltaStep_const
      intro ev hev
      apply handleDeleteRows_events h fb deltaRows view ev
      rw [hrest]
      exact List.mem_append_left _ hev

/-- C6 witness — a view `(g, COUNT(*), MIN(v))` deleting source row
`(9, 5)` from group 9 (count 2, min 5): the trace is enter, create-query,
exit, fallback, update, so the fallback event's prefix contains the
delta-mode exit and delta mode is off there. -/
theorem handleTupleDelete_fallback_after_exitDelta_witness :
    ViewEvent.exitDeltaMode ∈ [ViewEvent.enterDeltaMode, ViewEvent.executeCreateQuery,
        ViewEvent.exitDeltaMode] ∧
    deltaActive [ViewEvent.enterDeltaMode, ViewEvent.executeCreateQuery,
        ViewEvent.exitDeltaMode] = false :=
  handleTupleDelete_fallback_after_exitDelta
    ⟨1, [ExpressionType.aggregateCountStar, ExpressionType.aggregateMin], 1⟩
    [[some 9, some 2, some 5]] [[some 9, some 1, some 5]] (fun _ _ => some 7)
    [ViewEvent.enterDeltaMode, ViewEvent.executeCreateQuery, ViewEvent.exitDeltaMode]
    [ViewEvent.updateExisting [some 9, some 2, some 5] [some 9, some 1, some 7]] 0
    (by decide)

/-- Filling parameter slots preserves the array length. -/
lemma setSlots_length (p : List NValue) (m : Nat) (f : Nat → NValue) :
    (setSlots p m f).length = p.length := by
  suffices hgen : ∀ (l : List Nat) (q : List NValue),
      (l.foldl (fun q k => q.set k (f k)) q).length = q.length by
    exact hgen (List.range m) p
  intro l
  induction l with
  | nil => intro q; rfl
  | cons a t ih =>
      intro q
      rw [List.foldl_cons, ih, List.length_set]

/-- Reading a parameter array after filling slots `0..m-1`. -/
lemma setSlots_getElem? (p : List NValue) (f : Nat → NValue) :
    ∀ (m i : Nat), (setSlots p m f)[i]? =
      if i < m ∧ i < p.length then some (f i) else p[i]? := by
  intro m
  induction m with
  | zero =>
      intro i
      simp [setSlots]
  | succ m ih =>
      intro i
      have hstep : setSlots p (m + 1) f = (setSlots p m f).set m (f m) := by
        unfold setSlots
        rw [List.range_succ, List.foldl_append]
        rfl
      rw [hstep, List.getElem?_set, setSlots_length, ih i]
      by_cases him : m = i
      · subst him
        by_cases hlen : m < p.length
        · simp [hlen]
        · have hge : p.length ≤ m := Nat.le_of_not_lt hlen
          simp only [if_pos rfl, if_neg hlen]
          rw [if_neg (by omega : ¬ (m < m + 1 ∧ m < p.length))]
          exact (List.getElem?_eq_none hge).symm
      · rw [if_neg him]
        by_cases hi : i < m ∧ i < p.length
        · rw [if_pos hi, if_pos (by omega : i < m + 1 ∧ i < p.length)]
        · rw [if_neg hi, if_neg (by omega : ¬ (i < m + 1 ∧ i < p.length))]

end VoltVerify

namespace VoltVerify

/-- C7 — `fallbackMinMaxColumn` leaves the executor context's parameter array
exactly as it found it: the group-by-key and extremum slots it temporarily
overwrites are written back from the backups, and no other slot is ever
touched. -/
theorem fallbackMinMaxColumn_restores_params (h : MVHandler) (existingTuple : Tuple)
    (columnIndex : Nat) (execQuery : List NValue → Option Tuple) (params : List NValue)
    (hlen : h.groupByColumnCount < params.length) :
    (fallbackMinMaxColumn h existingTuple columnIndex execQuery params).2 = params := by
  simp only [fallbackMinMaxColumn]
  apply List.ext_getElem?
  intro i
  have hfilledlen :
      ((setSlots params h.groupByColumnCount (fun i => existingTuple.getNValue i)).set
        h.groupByColumnCount (existingTuple.getNValue columnIndex)).length = params.length := by
    rw [List.length_set, setSlots_length]
  rw [setSlots_getElem?, hfilledlen]
  by_cases hi : i < h.groupByColumnCount + 1 ∧ i < params.length
  · rw [if_pos hi]
    have hback : ((List.range (h.groupByColumnCount + 1)).map
        (fun i => params.getD i none)).getD i none = params.getD i none :=
      getD_range_map (fun i => params.getD i none) (h.groupByColumnCount + 1) i hi.1
    rw [hback, List.getD_eq_getElem params none hi.2, List.getElem?_eq_getElem hi.2]
  · rw [if_neg hi]
    by_cases hilen : i < params.length
    · have hin : ¬ i < h.groupByColumnCount + 1 := fun hcon => hi ⟨hcon, hilen⟩
      rw [List.getElem?_set_ne (by omega : h.groupByColumnCount ≠ i), setSlots_getElem?]
      rw [if_neg (by omega : ¬ (i < h.groupByColumnCount ∧ i < params.length))]
    · have hge : params.length ≤ i := Nat.le_of_not_lt hilen
      rw [List.getElem?_eq_none (by rw [hfilledlen]; exact hge),
        List.getElem?_eq_none hge]

/-- C7 witness — a handler with one group-by column: running the fallback
query over parameter array `[some 3, some 4, some 5]` hands back the array
unchanged. -/
theorem fallbackMinMaxColumn_restores_params_witness :
    (fallbackMinMaxColumn ⟨1, [ExpressionType.aggregateMin], 1⟩ [some 8, some 6] 1
        (fun _ => some [some 0]) [some 3, some 4, some 5]).2 =
      [some 3, some 4, some 5] :=
  fallbackMinMaxColumn_restores_params ⟨1, [ExpressionType.aggregateMin], 1⟩
    [some 8, some 6] 1 (fun _ => some [some 0]) [some 3, some 4, some 5] (by decide)

/-- With no group-by columns, the row fetch of `findExistingTuple` on a
one-row view yields that row. -/
lemma findExistingTuple_singleton (h : MVHandler) (r d : Tuple)
    (hgb : h.groupByColumnCount = 0) : findExistingTuple h [r] d = some r := by
  simp [findExistingTuple, hgb]

/-- Updating the only row of a one-row view replaces it in place. -/
lemma updateRowAt_singleton (r u : Tuple) : updateRowAt [r] r u = [u] := by
  simp [updateRowAt, List.findIdx?]

/-- The insert loop on a no-group-by, one-row view always merges in place:
the view keeps exactly one row and no direct insert happens. -/
lemma handleInsertRows_singleton (h : MVHandler) (hgb : h.groupByColumnCount = 0) :
    ∀ (rows : List Tuple) (r : Tuple),
      (∃ r2, (handleInsertRows h [r] rows).1 = [r2]) ∧
      (∀ d, ViewEvent.directInsert d ∉ (handleInsertRows h [r] rows).2) := by
  intro rows
  induction rows with
  | nil =>
      intro r
      exact ⟨⟨r, rfl⟩, fun d hd => absurd hd (List.not_mem_nil _)⟩
  | cons d rest ih =>
      intro r
      have hrow : handleInsertRow h [r] d =
          ([mergeTupleForInsert h r d],
           [ViewEvent.updateExisting r (mergeTupleForInsert h r d)]) := by
        rw [handleInsertRow, findExistingTuple_singleton h r d hgb]
        simp only [updateRowAt_singleton]
      rw [handleInsertRows, hrow]
      simp only
      obtain ⟨⟨r2, hr2⟩, hnod⟩ := ih (mergeTupleForInsert h r d)
      refine ⟨⟨r2, hr2⟩, ?_⟩
      intro dd hdd
      rcases List.mem_append.mp hdd with h1 | h2
      · simp at h1
      · exact hnod dd h2

/-- The delete loop on a no-group-by, one-row view always merges in place:
the view keeps exactly one row and the fatal `ViewDesync` never fires. -/
lemma handleDeleteRows_singleton (h : MVHandler) (fb : Nat → Tuple → NValue)
    (hgb : h.groupByColumnCount = 0) :
    ∀ (rows : List Tuple) (r : Tuple),
      (∃ r2, (handleDeleteRows h fb [r] rows).1 = [r2]) ∧
      ViewEvent.fatalViewDesync ∉ (handleDeleteRows h fb [r] rows).2 := by
  intro rows
  induction rows with
  | nil =>
      intro r
      exact ⟨⟨r, rfl⟩, fun hd => absurd hd (List.not_mem_nil _)⟩
  | cons d rest ih =>
      intro r
      have hrow : handleDeleteRow h [r] d fb =
          some ([(mergeTupleForDelete h r d fb).1],
            (mergeTupleForDelete h r d fb).2 ++
              [ViewEvent.updateExisting r (mergeTupleForDelete h r d fb).1]) := by
        rw [handleDeleteRow, findExistingTuple_singleton h r d hgb]
        simp only [hgb, Nat.lt_irrefl, and_false, if_false, updateRowAt_singleton]
      rw [handleDeleteRows, hrow]
      simp only
      obtain ⟨⟨r2, hr2⟩, hnod⟩ := ih (mergeTupleForDelete h r d fb).1
      refine ⟨⟨r2, hr2⟩, ?_⟩
      intro hdd
      rcases List.mem_append.mp hdd with h1 | h2
      · rcases List.mem_append.mp h1 with h3 | h4
        · obtain ⟨k, hk⟩ := mergeTupleForDelete_events_only_fallback h r d fb _ h3
          exact ViewEvent.noConfusion hk
        · simp at h4
      · exact hnod h2

end VoltVerify

namespace VoltVerify

/-- C8 — for a view handler with zero group-by columns, under the invariant
that the destination view holds exactly one row: `findExistingTuple` yields
that row for every delta tuple; the insert path never takes its not-found
branch (no direct insert) and keeps the view at one row; and the delete path
never takes its fatal `ViewDesync` branch and keeps the view at one row. -/
theorem noGroupBy_singleton_spec (h : MVHandler) (r : Tuple)
    (view deltaRows : List Tuple) (fb : Nat → Tuple → NValue)
    (hgb : h.groupByColumnCount = 0) (hview : view = [r]) :
    (∀ d, findExistingTuple h view d = some r) ∧
    (∃ r2, (handleTupleInsert h view deltaRows).1 = [r2]) ∧
    (∀ d, ViewEvent.directInsert d ∉ (handleTupleInsert h view deltaRows).2) ∧
    (∃ r2, (handleTupleDelete h view deltaRows fb).1 = [r2]) ∧
    ViewEvent.fatalViewDesync ∉ (handleTupleDelete h view deltaRows fb).2 := by
  subst hview
  obtain ⟨hins1, hins2⟩ := handleInsertRows_singleton h hgb deltaRows r
  obtain ⟨hdel1, hdel2⟩ := handleDeleteRows_singleton h fb hgb deltaRows r
  refine ⟨fun d => findExistingTuple_singleton h r d hgb, hins1, ?_, hdel1, ?_⟩
  · intro d hd
    simp only [handleTupleInsert, List.mem_cons, List.mem_append,
      List.mem_singleton] at hd
    rcases hd with h1 | h2 | h3 | h4
    · exact ViewEvent.noConfusion h1
    · exact ViewEvent.noConfusion h2
    · exact hins2 d h3
    · rcases h4 with h5 | h6
      · exact ViewEvent.noConfusion h5
      · exact absurd h6 (List.not_mem_nil _)
  · intro hd
    simp only [handleTupleDelete, List.mem_cons] at hd
    rcases hd with h1 | h2 | h3 | h4
    · exact ViewEvent.noConfusion h1
    · exact ViewEvent.noConfusion h2
    · exact ViewEvent.noConfusion h3
    · exact hdel2 h4

/-- C8 witness — the no-group-by view `(COUNT(*), SUM(v))` holding its single
row `(0, NULL)`: the lookup finds the row and a delete pass raises no
`ViewDesync`. -/
theorem noGroupBy_singleton_spec_witness :
    findExistingTuple ⟨0, [ExpressionType.aggregateCountStar, ExpressionType.aggregateSum], 0⟩
        [[some 0, none]] [some 1, some 5] = some [some 0, none] ∧
    ViewEvent.fatalViewDesync ∉
      (handleTupleDelete ⟨0, [ExpressionType.aggregateCountStar, ExpressionType.aggregateSum], 0⟩
        [[some 0, none]] [[some 1, some 5]] (fun _ _ => none)).2 := by
  have hs := noGroupBy_singleton_spec
    ⟨0, [ExpressionType.aggregateCountStar, ExpressionType.aggregateSum], 0⟩
    [some 0, none] [[some 0, none]] [[some 1, some 5]] (fun _ _ => none) rfl rfl
  exact ⟨hs.1 [some 1, some 5], hs.2.2.2.2⟩

/-- C9 — the dependency sub-protocol: a `DependencyNotFound` status byte makes
`retrieveDependency` return NULL having consumed only that one byte; any
status other than `DependencyNotFound`/`DependencyFound` is fatal to the
process; a `DependencyFound` status makes it read a big-endian `i32` length
and then exactly that many payload bytes, returning them. -/
theorem retrieveDependency_spec (responseCode : Nat) (rest lenBytes body extra : List Nat) :
    (responseCode = kErrorCode_DependencyNotFound →
      retrieveDependency (responseCode :: rest) = (DependencyResult.nullDependency, 1)) ∧
    (responseCode ≠ kErrorCode_DependencyNotFound →
      responseCode ≠ kErrorCode_DependencyFound →
      retrieveDependency (responseCode :: rest) = (DependencyResult.fatalError, 1)) ∧
    (lenBytes.length = 4 → readBE32 lenBytes = body.length → body.length < 2 ^ 31 →
      retrieveDependency (kErrorCode_DependencyFound :: (lenBytes ++ (body ++ extra))) =
        (DependencyResult.dependencyData body, 1 + 4 + body.length)) := by
  refine ⟨?_, ?_, ?_⟩
  · intro hnf
    simp [retrieveDependency, hnf]
  · intro hnf hf
    simp [retrieveDependency, hnf, hf]
  · intro hlB hlen hbound
    simp only [retrieveDependency]
    rw [if_neg (by decide :
      ¬ (kErrorCode_DependencyFound = kErrorCode_DependencyNotFound))]
    rw [if_neg (fun hne => hne rfl :
      ¬ (kErrorCode_DependencyFound ≠ kErrorCode_DependencyFound))]
    rw [if_pos (by rw [List.length_append, hlB]; omega :
      4 ≤ (lenBytes ++ (body ++ extra)).length)]
    rw [show (4 : Nat) = lenBytes.length from hlB.symm, List.take_left, List.drop_left,
      hlen]
    rw [if_pos ⟨hbound, by rw [List.length_append]; omega⟩]
    rw [List.take_left]

/-- C9 witness — status `DependencyFound`, length bytes `00 00 00 02`, payload
`[7, 8]` with a trailing byte `9` left in the stream: the two payload bytes
come back and 7 bytes were consumed. -/
theorem retrieveDependency_spec_witness :
    retrieveDependency (kErrorCode_DependencyFound :: ([0, 0, 0, 2] ++ ([7, 8] ++ [9]))) =
      (DependencyResult.dependencyData [7, 8], 1 + 4 + 2) :=
  (retrieveDependency_spec 0 [] [0, 0, 0, 2] [7, 8] [9]).2.2 rfl (by decide) (by decide)

/-- Dropping handlers from tables other than `t` leaves `t`'s notify list
unchanged. -/
lemma foldl_drop_other (g : Nat × Bool → Nat) :
    ∀ (src : List (Nat × Bool)) (ts : NotifyLists) (t : Nat),
      t ∉ src.map Prod.fst →
      (src.foldl (fun acc x => dropViewHandler acc x.1 (g x)) ts) t = ts t := by
  intro src
  induction src with
  | nil => intro ts t _; rfl
  | cons a rest ih =>
      intro ts t ht
      rw [List.map_cons] at ht
      have h1 : t ≠ a.1 := fun he => ht (he ▸ List.mem_cons_self _ _)
      rw [List.foldl_cons, ih _ t (fun hm => ht (List.mem_cons_of_mem _ hm))]
      simp [dropViewHandler, h1]

/-- Folding the destructor's drops over source tables with pairwise-distinct
ids erases each table's registered handler id exactly once. -/
lemma foldl_drop_eval (g : Nat × Bool → Nat) :
    ∀ (src : List (Nat × Bool)) (ts : NotifyLists) (s : Nat × Bool),
      s ∈ src → (src.map Prod.fst).Nodup →
      (src.foldl (fun acc x => dropViewHandler acc x.1 (g x)) ts) s.1 =
        (ts s.1).erase (g s) := by
  intro src
  induction src with
  | nil => intro ts s hs _; exact absurd hs (List.not_mem_nil _)
  | cons a rest ih =>
      intro ts s hs hnodup
      rw [List.map_cons, List.nodup_cons] at hnodup
      rw [List.foldl_cons]
      rcases List.mem_cons.mp hs with he | hm
      · subst he
        rw [foldl_drop_other g rest _ s.1 hnodup.1]
        simp [dropViewHandler]
      · have hne : s.1 ≠ a.1 := by
          intro heq
          exact hnodup.1 (heq ▸ List.mem_map_of_mem Prod.fst hm)
        rw [ih _ s hm hnodup.2]
        simp [dropViewHandler, hne]

end VoltVerify

namespace VoltVerify

/-- C10 — installing a new handler on a destination table: the destination
slot afterwards holds exactly the new handler; the destruction of the old
handler removed it (or its replicated wrapper) from the notify list of every
one of its source tables; and in the mutation trace every drop precedes
every registration. -/
theorem install_replaces_old_handler (newHandler old : MVHandlerObj) (st : InstallState)
    (hold : st.destHandler = some old)
    (hnodup : (old.sourceTables.map Prod.fst).Nodup)
    (hreg : ∀ s ∈ old.sourceTables,
      (st.tables s.1).count (registeredId old s.2) = 1) :
    ((install newHandler st).1.destHandler = some newHandler) ∧
    (∀ s ∈ old.sourceTables,
      registeredId old s.2 ∉ destroyHandler old st.tables s.1) ∧
    ((install newHandler st).2 =
      old.sourceTables.map (fun s => InstallEvent.dropNotify s.1 (registeredId old s.2)) ++
        newHandler.sourceTables.map
          (fun s => InstallEvent.addNotify s.1 (registeredId newHandler s.2))) ∧
    (∀ (i j t1 i1 t2 i2 : Nat),
      (install newHandler st).2[i]? = some (InstallEvent.dropNotify t1 i1) →
      (install newHandler st).2[j]? = some (InstallEvent.addNotify t2 i2) →
      i < j) := by
  have hevents : (install newHandler st).2 =
      old.sourceTables.map (fun s => InstallEvent.dropNotify s.1 (registeredId old s.2)) ++
        newHandler.sourceTables.map
          (fun s => InstallEvent.addNotify s.1 (registeredId newHandler s.2)) := by
    simp [install, hold]
  refine ⟨rfl, ?_, hevents, ?_⟩
  · intro s hs
    unfold destroyHandler
    rw [foldl_drop_eval (fun x => registeredId old x.2) old.sourceTables st.tables s hs hnodup]
    intro hmem
    have hpos := List.count_pos_iff.mpr hmem
    rw [List.count_erase_self, hreg s hs] at hpos
    omega
  · intro i j t1 i1 t2 i2 hi hj
    rw [hevents] at hi hj
    have hiL : i < (old.sourceTables.map
        (fun s => InstallEvent.dropNotify s.1 (registeredId old s.2))).length := by
      by_contra hge
      push_neg at hge
      rw [List.getElem?_append_right hge] at hi
      obtain ⟨s, _, hform⟩ := List.mem_map.mp (List.getElem?_mem hi)
      exact InstallEvent.noConfusion hform
    have hjL : (old.sourceTables.map
        (fun s => InstallEvent.dropNotify s.1 (registeredId old s.2))).length ≤ j := by
      by_contra hlt
      push_neg at hlt
      rw [List.getElem?_append_left hlt] at hj
      obtain ⟨s, _, hform⟩ := List.mem_map.mp (List.getElem?_mem hj)
      exact InstallEvent.noConfusion hform
    omega

/-- C10 witness — replacing handler 1 (source table 0) with handler 3: the
destination slot holds the new handler and the destructor removed id 1 from
table 0's notify list. -/
theorem install_replaces_old_handler_witness :
    ((install ⟨3, 4, [(0, false)], false⟩
        ⟨fun t => if t = 0 then [1] else [], some ⟨1, 2, [(0, false)], false⟩⟩).1.destHandler =
      some ⟨3, 4, [(0, false)], false⟩) ∧
    1 ∉ destroyHandler ⟨1, 2, [(0, false)], false⟩
        (fun t => if t = 0 then [1] else []) 0 := by
  have hs := install_replaces_old_handler ⟨3, 4, [(0, false)], false⟩
    ⟨1, 2, [(0, false)], false⟩
    ⟨fun t => if t = 0 then [1] else [], some ⟨1, 2, [(0, false)], false⟩⟩ rfl (by decide)
    (by intro s hs; simp only [List.mem_singleton] at hs; subst hs; rfl)
  exact ⟨hs.1, hs.2.1 (0, false) (List.mem_singleton.mpr rfl)⟩

end VoltVerify
